import Mathlib

/-!
# Verification of the `tts_sdk` time-stretch / model-cache / detection pipeline

Shallow embedding of `src/tts_sdk/tts.py`.

Modelling conventions:
* Waveform samples and the speed factor are rationals (`ℚ`); the numpy
  computations (`linspace`, `interp`) are linear-interpolation arithmetic,
  embedded exactly over `ℚ`.
* Python `int()` applied to a rational truncates toward zero (`pyInt`).
* External collaborators (`VitsModel.from_pretrained`, `AutoTokenizer`,
  tokenization, inference, `soundfile` encoding, the `langid.classify` and
  `langdetect.detect` classifiers) are oracles returning `Option`;
  `none` models a raised exception, which every `try/except` in the source
  converts to a fallback value.
* The module-level mutable dict `loaded_models` is an association list
  threaded explicitly through `get_model`; external fetch attempts
  (`from_pretrained` calls) are counted in the result.
-/

namespace TtsSdk

/-- The `supported_languages` dict of `tts.py`: language code ↦ model id. -/
def supported_languages : List (String × String) := [
  ("hi", "facebook/mms-tts-hin"),
  ("en", "facebook/mms-tts-eng"),
  ("ta", "facebook/mms-tts-tam"),
  ("pa", "facebook/mms-tts-pan"),
  ("bn", "facebook/mms-tts-ben"),
  ("mr", "facebook/mms-tts-mar"),
  ("gu", "facebook/mms-tts-guj"),
  ("kn", "facebook/mms-tts-kan"),
  ("ml", "facebook/mms-tts-mal"),
  ("te", "facebook/mms-tts-tel"),
  ("or", "facebook/mms-tts-ory"),
  ("as", "facebook/mms-tts-asm"),
  ("ur", "facebook/mms-tts-urd"),
  ("sd", "facebook/mms-tts-snd"),
  ("kok", "facebook/mms-tts-kok"),
  ("sa", "facebook/mms-tts-san"),
  ("doi", "facebook/mms-tts-doi"),
  ("ne", "facebook/mms-tts-nep"),
  ("mai", "facebook/mms-tts-mai"),
  ("brx", "facebook/mms-tts-brx"),
  ("mni", "facebook/mms-tts-mni"),
  ("sat", "facebook/mms-tts-sat"),
  ("fr", "facebook/mms-tts-fra"),
  ("de", "facebook/mms-tts-deu"),
  ("es", "facebook/mms-tts-spa"),
  ("it", "facebook/mms-tts-ita"),
  ("pt", "facebook/mms-tts-por"),
  ("ru", "facebook/mms-tts-rus"),
  ("nl", "facebook/mms-tts-nld"),
  ("pl", "facebook/mms-tts-pol"),
  ("sv", "facebook/mms-tts-swe"),
  ("da", "facebook/mms-tts-dan"),
  ("fi", "facebook/mms-tts-fin"),
  ("no", "facebook/mms-tts-nor"),
  ("el", "facebook/mms-tts-ell"),
  ("zh", "facebook/mms-tts-zho"),
  ("ja", "facebook/mms-tts-jpn"),
  ("ko", "facebook/mms-tts-kor"),
  ("th", "facebook/mms-tts-tha"),
  ("vi", "facebook/mms-tts-vie"),
  ("ms", "facebook/mms-tts-msa"),
  ("id", "facebook/mms-tts-ind"),
  ("fil", "facebook/mms-tts-tgl"),
  ("ar", "facebook/mms-tts-ara"),
  ("tr", "facebook/mms-tts-tur"),
  ("fa", "facebook/mms-tts-fas"),
  ("he", "facebook/mms-tts-heb"),
  ("am", "facebook/mms-tts-amh"),
  ("sw", "facebook/mms-tts-swa"),
  ("yo", "facebook/mms-tts-yor"),
  ("ha", "facebook/mms-tts-hau"),
  ("ig", "facebook/mms-tts-ibo"),
  ("hu", "facebook/mms-tts-hun"),
  ("cs", "facebook/mms-tts-ces"),
  ("ro", "facebook/mms-tts-ron"),
  ("bg", "facebook/mms-tts-bul"),
  ("uk", "facebook/mms-tts-ukr"),
  ("sr", "facebook/mms-tts-srp"),
  ("hr", "facebook/mms-tts-hrv"),
  ("sk", "facebook/mms-tts-slk")]

/-- Python `lang in supported_languages` (dict key membership). -/
def isSupported (lang : String) : Bool :=
  (List.lookup lang supported_languages).isSome

/-- The `loaded_models` dict: language code ↦ (model, tokenizer) handle.
Models and tokenizers are opaque, represented by natural-number ids. -/
abbrev Cache := List (String × Nat × Nat)

/-- The external world: every fallible third-party call of `tts.py` as an
oracle. `none` models the call raising an exception. -/
structure Env where
  /-- Call `VitsModel.from_pretrained(model_id)`. -/
  loadModel : String → Option Nat
  /-- Call `AutoTokenizer.from_pretrained(model_id)`. -/
  loadTokenizer : String → Option Nat
  /-- Call `tokenizer(text, return_tensors="pt")`. -/
  tokenize : Nat → String → Option Nat
  /-- Run `model(**inputs).waveform`, flattened to a sample list. -/
  infer : Nat → Nat → Option (List ℚ)
  /-- Call `sf.write(buffer, waveform, 16000, format="WAV")`, returning a buffer id. -/
  encode : List ℚ → Option Nat
  /-- Call `langid.classify(text)`, first component of the result. -/
  classify : String → Option String
  /-- Call `langdetect.detect(text)`. -/
  detect : String → Option String

/-- Embedding of `get_model(lang)` of `tts.py`, with the `loaded_models` state explicit.
Returns (new cache, optional (model, tokenizer) handle, number of external
fetch attempts).  `supported_languages[lang]` raising `KeyError`, and either
`from_pretrained` raising, are both caught and produce `(None, None)` with
the cache unmodified. -/
def get_model (E : Env) (loaded_models : Cache) (lang : String) :
    Cache × Option (Nat × Nat) × Nat :=
  match List.lookup lang loaded_models with
  | some h => (loaded_models, some h, 0)
  | none =>
    match List.lookup lang supported_languages with
    | none => (loaded_models, none, 0)
    | some mid =>
      match E.loadModel mid with
      | none => (loaded_models, none, 1)
      | some m =>
        match E.loadTokenizer mid with
        | none => (loaded_models, none, 2)
        | some t => ((lang, m, t) :: loaded_models, some (m, t), 2)

/-- Embedding of `detect_language(text)` of `tts.py`: primary classifier, catalog check,
secondary detector, catalog check, else the sentinel; any exception
(including one raised by the primary classifier) yields the sentinel. -/
def detect_language (E : Env) (text : String) : String :=
  match E.classify text with
  | none => "unknown"
  | some lang =>
    if isSupported lang then lang
    else
      match E.detect text with
      | none => "unknown"
      | some d => if isSupported d then d else "unknown"

/-- Python `int()` on a rational: truncation toward zero. -/
def pyInt (x : ℚ) : ℤ :=
  if 0 ≤ x then ⌊x⌋ else ⌈x⌉

/-- Embedding of `np.linspace(start, stop, num)` (endpoint included).  For `num = 1`
numpy returns `[start]`; the formula below agrees because `ℚ` division by
zero is zero. -/
def linspace (start stop : ℚ) (num : Nat) : List ℚ :=
  (List.range num).map (fun i : Nat => start + (stop - start) * (i : ℚ) / ((num : ℚ) - 1))

/-- Embedding of `np.interp(q, np.arange(len(w)), w)` for a single query point `q`:
clamped linear interpolation against integer sample points `0, …, len w - 1`. -/
def interp1 (w : List ℚ) (q : ℚ) : ℚ :=
  if q ≤ 0 then w.getD 0 0
  else if (w.length : ℚ) - 1 ≤ q then w.getD (w.length - 1) 0
  else
    w.getD (⌊q⌋).toNat 0 +
      (w.getD ((⌊q⌋).toNat + 1) 0 - w.getD (⌊q⌋).toNat 0) * (q - ((⌊q⌋).toNat : ℚ))

/-- Embedding of `time_stretch(waveform, speed)` of `tts.py`.  The `except` branch
returns the original waveform; it is reached when the float division by
`speed = 0` raises `ZeroDivisionError`, when `np.linspace` rejects a
negative sample count, or when `np.interp` rejects an empty sample-point
array (`len(waveform) = 0`). -/
def time_stretch (waveform : List ℚ) (speed : ℚ) : List ℚ :=
  if speed = 1 then waveform
  else if speed = 0 then waveform
  else
    let num : ℤ := pyInt ((waveform.length : ℚ) / speed)
    if num < 0 then waveform
    else if waveform.length = 0 then waveform
    else (linspace 0 ((waveform.length : ℚ) - 1) num.toNat).map (interp1 waveform)

/-- Embedding of `synthesize_audio(text, lang, speed)` of `tts.py`: resolve the model
handle, tokenize, infer, time-stretch, encode; every exception is caught
and converted to `None`.  Returns (new cache, optional buffer id, external
fetch attempts). -/
def synthesize_audio (E : Env) (loaded_models : Cache) (text lang : String)
    (speed : ℚ) : Cache × Option Nat × Nat :=
  match get_model E loaded_models lang with
  | (c, mh, f) =>
    match mh with
    | none => (c, none, f)
    | some (m, tk) =>
      match E.tokenize tk text with
      | none => (c, none, f)
      | some inp =>
        match E.infer m inp with
        | none => (c, none, f)
        | some wv =>
          match E.encode (time_stretch wv speed) with
          | none => (c, none, f)
          | some buf => (c, some buf, f)

/-- Embedding of `speak(text, speed)` of `tts.py`: detect the language, synthesize if
supported, else `None`. -/
def speak (E : Env) (loaded_models : Cache) (text : String) (speed : ℚ) :
    Cache × Option Nat × Nat :=
  let dl := detect_language E text
  if isSupported dl then synthesize_audio E loaded_models text dl speed
  else (loaded_models, none, 0)

/-- Embedding of `speak_with_lang(lang, text, speed)` of `tts.py`: validate the code
against the catalog, synthesize on match, else `None`. -/
def speak_with_lang (E : Env) (loaded_models : Cache) (lang text : String)
    (speed : ℚ) : Cache × Option Nat × Nat :=
  if isSupported lang = false then (loaded_models, none, 0)
  else synthesize_audio E loaded_models text lang speed

/-! ## Specification-side definitions

Definitions written from the spec's wording (§4.3, §8), used to state the
refinement claims about the resampler, the raise conditions of the
`time_stretch` body, the cache invariant and the pipeline success
conditions. -/

/-- Spec §4.3: `output_length` evenly spaced sample positions spanning
`[0, input_length - 1]` (for a single position the span degenerates to its
start). -/
def stretchPositions (n m : Nat) : List ℚ :=
  (List.range m).map (fun k : Nat => ((n : ℚ) - 1) * (k : ℚ) / ((m : ℚ) - 1))

/-- Spec §4.3: linear interpolation of waveform `w` at a position
`p ∈ [0, len w - 1]`: between adjacent samples `⌊p⌋` and `⌊p⌋ + 1`, with
the right endpoint giving the last sample. -/
def lerpAt (w : List ℚ) (p : ℚ) : ℚ :=
  if (⌊p⌋).toNat + 1 < w.length then
    (1 - (p - ((⌊p⌋).toNat : ℚ))) * w.getD (⌊p⌋).toNat 0 +
      (p - ((⌊p⌋).toNat : ℚ)) * w.getD ((⌊p⌋).toNat + 1) 0
  else w.getD (w.length - 1) 0

/-- Conditions under which the Python `try` body of `time_stretch` raises:
float division by `speed = 0` (`ZeroDivisionError`), a negative sample
count rejected by `np.linspace`, or an empty sample-point array rejected
by `np.interp` (`len(waveform) = 0`).  The guard `s ≠ 1` is the early
`return` before any arithmetic runs. -/
def stretchRaises (w : List ℚ) (s : ℚ) : Prop :=
  s ≠ 1 ∧ (s = 0 ∨ pyInt ((w.length : ℚ) / s) < 0 ∨ w.length = 0)

/-- One cache entry is the result of a successful load of a catalog model:
its key is in `supported_languages` and its handle is exactly what the
fetches for the catalog's model id return. -/
def entryOK (E : Env) (kv : String × Nat × Nat) : Bool :=
  match List.lookup kv.1 supported_languages with
  | none => false
  | some mid =>
    match E.loadModel mid, E.loadTokenizer mid with
    | some m, some t => m == kv.2.1 && t == kv.2.2
    | _, _ => false

/-- Cache well-formedness: every cached handle came from a successful load
of a catalog model for its key. -/
def cacheWF (E : Env) (c : Cache) : Prop :=
  c.all (entryOK E) = true

/-- Run a sequence of `get_model` calls from the empty initial cache
(the module-load state of `loaded_models`), keeping the cache state. -/
def runCalls (E : Env) (langs : List String) : Cache :=
  langs.foldl (fun c l => (get_model E c l).1) []

/-- All pipeline stages of `synthesize_audio` succeeding with buffer `b`:
model resolution, tokenization, inference and encoding of the stretched
waveform. -/
def synthSteps (E : Env) (c : Cache) (text lang : String) (speed : ℚ) (b : Nat) : Prop :=
  ∃ m t inp wv,
    (get_model E c lang).2.1 = some (m, t) ∧
    E.tokenize t text = some inp ∧
    E.infer m inp = some wv ∧
    E.encode (time_stretch wv speed) = some b

/-- A concrete environment in which every external call succeeds, used to
instantiate the universally quantified theorems below. -/
def envOK : Env where
  loadModel := fun _ => some 1
  loadTokenizer := fun _ => some 2
  tokenize := fun _ _ => some 3
  infer := fun _ _ => some [1, 0]
  encode := fun _ => some 7
  classify := fun _ => some "en"
  detect := fun _ => some "fr"

/-! ## Resampler lemmas -/

theorem length_linspace (a b : ℚ) (n : Nat) : (linspace a b n).length = n := by
  rw [linspace, List.length_map, List.length_range]

theorem time_stretch_pos (w : List ℚ) (s : ℚ) (hs : 0 < s) (hs1 : s ≠ 1) (hw : w.length ≠ 0) :
    time_stretch w s =
      (linspace 0 ((w.length : ℚ) - 1) (⌊(w.length : ℚ) / s⌋).toNat).map (interp1 w) := by
  have hnum : pyInt ((w.length : ℚ) / s) = ⌊(w.length : ℚ) / s⌋ := by
    rw [pyInt, if_pos (div_nonneg (Nat.cast_nonneg _) hs.le)]
  have hge : ¬ (⌊(w.length : ℚ) / s⌋ < 0) := by
    simp only [not_lt]
    exact Int.floor_nonneg.2 (div_nonneg (Nat.cast_nonneg _) hs.le)
  simp only [time_stretch, if_neg hs1, if_neg (ne_of_gt hs), hnum, if_neg hge, if_neg hw]

theorem time_stretch_length (w : List ℚ) (s : ℚ) (hs : 0 < s) (hs1 : s ≠ 1) :
    (time_stretch w s).length = (⌊(w.length : ℚ) / s⌋).toNat := by
  by_cases hw : w.length = 0
  · have : w = [] := List.length_eq_zero.1 hw
    subst this
    simp [time_stretch, if_neg hs1, if_neg (ne_of_gt hs), pyInt]
  · rw [time_stretch_pos w s hs hs1 hw]
    rw [List.length_map, length_linspace]

theorem linspace_eq_stretchPositions (n m : Nat) :
    linspace 0 ((n : ℚ) - 1) m = stretchPositions n m := by
  rw [linspace, stretchPositions]
  refine List.map_congr_left (fun i _ => ?_)
  ring

theorem stretchPositions_bounds {n m : Nat} (hn : 1 ≤ n) {p : ℚ}
    (hp : p ∈ stretchPositions n m) : 0 ≤ p ∧ p ≤ (n : ℚ) - 1 := by
  rw [stretchPositions] at hp
  obtain ⟨k, hk, rfl⟩ := List.mem_map.1 hp
  have hk' : k < m := List.mem_range.1 hk
  have hn' : (0 : ℚ) ≤ (n : ℚ) - 1 := by
    have : (1 : ℚ) ≤ (n : ℚ) := by exact_mod_cast hn
    linarith
  by_cases hm : m ≤ 1
  · have hm1 : m = 1 := by omega
    subst hm1
    have hk0 : k = 0 := by omega
    subst hk0
    constructor <;> norm_num [hn']
  · push_neg at hm
    have hm' : (0 : ℚ) < (m : ℚ) - 1 := by
      have : (2 : ℚ) ≤ (m : ℚ) := by exact_mod_cast hm
      linarith
    constructor
    · positivity
    · rw [div_le_iff₀ hm']
      have hk2 : (k : ℚ) ≤ (m : ℚ) - 1 := by
        have : (k : ℚ) + 1 ≤ (m : ℚ) := by exact_mod_cast hk'
        linarith
      nlinarith

theorem interp1_eq_lerpAt (w : List ℚ) (hw : w.length ≠ 0) (p : ℚ)
    (h0 : 0 ≤ p) (h1 : p ≤ (w.length : ℚ) - 1) : interp1 w p = lerpAt w p := by
  rcases eq_or_lt_of_le h0 with h0' | h0'
  · -- p = 0: both sides are the first sample
    subst h0'
    rw [interp1, if_pos le_rfl, lerpAt]
    by_cases hl : (⌊(0 : ℚ)⌋).toNat + 1 < w.length
    · rw [if_pos hl]
      norm_num
    · rw [if_neg hl]
      have : w.length = 1 := by
        simp only [Int.floor_zero, Int.toNat_zero] at hl
        omega
      rw [this]
  · -- 0 < p
    rcases eq_or_lt_of_le h1 with h1' | h1'
    · -- p = len - 1 exactly: both sides are the last sample
      rw [interp1, if_neg (not_le.2 h0'), if_pos (le_of_eq h1'.symm), lerpAt]
      have hfl : ⌊p⌋ = (w.length : ℤ) - 1 := by
        rw [h1']
        rw [show ((w.length : ℚ) - 1) = (((w.length : ℤ) - 1 : ℤ) : ℚ) by push_cast; ring]
        exact Int.floor_intCast _
      have hlen1 : 1 ≤ w.length := Nat.one_le_iff_ne_zero.2 hw
      have htn : (⌊p⌋).toNat = w.length - 1 := by
        rw [hfl]
        omega
      rw [htn]
      have : ¬ (w.length - 1 + 1 < w.length) := by omega
      rw [if_neg this]
    · -- 0 < p < len - 1: interior linear interpolation
      have hfl0 : 0 ≤ ⌊p⌋ := Int.floor_nonneg.2 h0
      have hflt : ⌊p⌋ < (w.length : ℤ) - 1 := by
        rw [Int.floor_lt]
        push_cast
        linarith
      have hil : (⌊p⌋).toNat + 1 < w.length := by omega
      rw [interp1, if_neg (not_le.2 h0'), if_neg (not_le.2 h1'), lerpAt, if_pos hil]
      ring

theorem time_stretch_nil (s : ℚ) : time_stretch [] s = [] := by
  by_cases h1 : s = 1
  · simp [time_stretch, h1]
  · by_cases h0 : s = 0
    · simp [time_stretch, h0, h1]
    · simp [time_stretch, h1, h0, pyInt]
/-! ## Cache lemmas -/

theorem lookup_mem {l : List (String × Nat × Nat)} {a : String} {b : Nat × Nat}
    (h : List.lookup a l = some b) : (a, b) ∈ l := by
  induction l with
  | nil => simp [List.lookup] at h
  | cons kv rest ih =>
    obtain ⟨k, v⟩ := kv
    by_cases hbeq : (a == k) = true
    · have hk : a = k := eq_of_beq hbeq
      simp only [List.lookup, hbeq] at h
      subst hk
      obtain rfl : v = b := by injection h
      exact List.mem_cons_self _ _
    · rw [Bool.not_eq_true] at hbeq
      simp only [List.lookup, hbeq] at h
      exact List.mem_cons_of_mem _ (ih h)

theorem lookup_eq_none_of_cacheWF {E : Env} {c : Cache} {lang : String}
    (hwf : cacheWF E c) (hsl : List.lookup lang supported_languages = none) :
    List.lookup lang c = none := by
  rcases h : List.lookup lang c with _ | v
  · rfl
  · exfalso
    have hmem : (lang, v) ∈ c := lookup_mem h
    have := List.all_eq_true.1 hwf _ hmem
    rw [entryOK, hsl] at this
    exact Bool.false_ne_true this

theorem get_model_preserves_wf (E : Env) (c : Cache) (lang : String)
    (hwf : cacheWF E c) : cacheWF E (get_model E c lang).1 := by
  rcases h1 : List.lookup lang c with _ | h
  · rcases h2 : List.lookup lang supported_languages with _ | mid
    · simpa [get_model, h1, h2] using hwf
    · rcases h3 : E.loadModel mid with _ | m
      · simpa [get_model, h1, h2, h3] using hwf
      · rcases h4 : E.loadTokenizer mid with _ | t
        · simpa [get_model, h1, h2, h3, h4] using hwf
        · simp only [get_model, h1, h2, h3, h4]
          rw [cacheWF, List.all_cons, Bool.and_eq_true]
          refine ⟨?_, hwf⟩
          simp [entryOK, h2, h3, h4]
  · simpa [get_model, h1] using hwf

/-! ## Claim theorems -/

/-- C2: for every waveform `w`, `time_stretch(w, 1.0)` returns `w` itself,
exactly and unchanged. -/
theorem stretch_identity_thm (w : List ℚ) : time_stretch w 1 = w := by
  rw [time_stretch, if_pos rfl]

/-- C1: for every waveform `w` and speed factor `s > 0`, `s ≠ 1`,
`time_stretch(w, s)` has length `⌊len w / s⌋` and its samples are the
linear interpolation of `w` at `⌊len w / s⌋` evenly spaced positions
spanning `[0, len w - 1]`; in particular the length at `s = 2` is
`⌊len w / 2⌋`. -/
theorem stretch_resample_thm (w : List ℚ) (s : ℚ) (hs : 0 < s) (hs1 : s ≠ 1) :
    (time_stretch w s).length = (⌊(w.length : ℚ) / s⌋).toNat ∧
    time_stretch w s =
      (stretchPositions w.length (⌊(w.length : ℚ) / s⌋).toNat).map (lerpAt w) ∧
    (time_stretch w 2).length = w.length / 2 := by
  refine ⟨time_stretch_length w s hs hs1, ?_, ?_⟩
  · by_cases hw : w.length = 0
    · have hnil : w = [] := List.length_eq_zero.1 hw
      subst hnil
      rw [time_stretch_nil]
      simp [stretchPositions]
    · rw [time_stretch_pos w s hs hs1 hw, linspace_eq_stretchPositions]
      refine List.map_congr_left (fun p hp => ?_)
      obtain ⟨hp0, hp1⟩ := stretchPositions_bounds (Nat.one_le_iff_ne_zero.2 hw) hp
      exact interp1_eq_lerpAt w hw p hp0 hp1
  · rw [time_stretch_length w 2 (by norm_num) (by norm_num), Int.floor_toNat]
    rw [show (2 : ℚ) = ((2 : ℕ) : ℚ) by norm_num, Nat.floor_div_nat, Nat.floor_natCast]

/-- Witness for C1 at the five-sample waveform and speed 2. -/
theorem stretch_resample_thm_wit :
    (0 : ℚ) < 2 ∧ (time_stretch [(0 : ℚ), 10, 20, 30, 40] 2).length = 2 := by
  refine ⟨by norm_num, ?_⟩
  have h := (stretch_resample_thm [(0 : ℚ), 10, 20, 30, 40] 2 (by norm_num) (by norm_num)).1
  rw [h]
  norm_num
  rfl

/-- Counterexample to C3 as stated: at `w = [5]` and `s = 9/10` (so
`0 < s < 1`) the output has length `⌊1/(9/10)⌋ = 1`, not strictly greater
than `len w = 1`. -/
theorem stretch_monotone_cex :
    ¬ (([(5 : ℚ)]).length < (time_stretch [(5 : ℚ)] (9/10)).length) := by
  have h : (time_stretch [(5 : ℚ)] (9/10)).length = 1 := by
    rw [time_stretch_length _ _ (by norm_num) (by norm_num)]
    norm_num
  rw [h]
  norm_num

/-- C3 (amended): for `s > 1` the output is strictly shorter whenever `w`
is nonempty; for `0 < s < 1` the output is at least as long as `w` (it can
be equal in length, as the counterexample shows, since the output length
is `⌊len w / s⌋`). -/
theorem stretch_monotone_thm (w : List ℚ) (s : ℚ) :
    (1 < s → w.length ≠ 0 → (time_stretch w s).length < w.length) ∧
    (0 < s → s < 1 → w.length ≤ (time_stretch w s).length) := by
  constructor
  · intro hs hw
    rw [time_stretch_length w s (by linarith) (by intro h; rw [h] at hs; exact lt_irrefl 1 hs)]
    have hlen : (0 : ℚ) < (w.length : ℚ) := by exact_mod_cast Nat.pos_of_ne_zero hw
    have hdiv : (w.length : ℚ) / s < (w.length : ℚ) := div_lt_self hlen hs
    have hfl : ⌊(w.length : ℚ) / s⌋ < (w.length : ℤ) := by
      rw [Int.floor_lt]
      push_cast
      linarith
    omega
  · intro hs0 hs1
    rw [time_stretch_length w s hs0 (ne_of_lt hs1)]
    have hle : (w.length : ℚ) ≤ (w.length : ℚ) / s := by
      rw [le_div_iff₀ hs0]
      nlinarith [Nat.cast_nonneg (α := ℚ) w.length]
    have hfl : (w.length : ℤ) ≤ ⌊(w.length : ℚ) / s⌋ := by
      rw [Int.le_floor]
      push_cast
      linarith
    omega

/-- Witness for the amended C3 at a three-sample waveform, speeds 2 and 1/2. -/
theorem stretch_monotone_thm_wit :
    (time_stretch [(1 : ℚ), 2, 3] 2).length < 3 ∧
    3 ≤ (time_stretch [(1 : ℚ), 2, 3] (1/2)).length := by
  constructor
  · have h := (stretch_monotone_thm [(1 : ℚ), 2, 3] 2).1 (by norm_num) (by norm_num)
    simpa using h
  · have h := (stretch_monotone_thm [(1 : ℚ), 2, 3] (1/2)).2 (by norm_num) (by norm_num)
    simpa using h

/-- C8: whenever the resampling body of `time_stretch` raises
(`stretchRaises`), `time_stretch` returns the original waveform unmodified. -/
theorem stretch_fail_soft_thm (w : List ℚ) (s : ℚ) (h : stretchRaises w s) :
    time_stretch w s = w := by
  obtain ⟨h1, h2⟩ := h
  by_cases h0 : s = 0
  · simp [time_stretch, h0, h1]
  · rcases h2 with h2 | h2 | h2
    · exact absurd h2 h0
    · simp only [time_stretch, if_neg h1, if_neg h0, if_pos h2]
    · simp only [time_stretch, if_neg h1, if_neg h0, h2, Nat.cast_zero, zero_div, pyInt]
      norm_num

/-- Witness for C8 at `w = [1]`, `s = -1` (negative sample count). -/
theorem stretch_fail_soft_thm_wit :
    stretchRaises [(1 : ℚ)] (-1) ∧ time_stretch [(1 : ℚ)] (-1) = [(1 : ℚ)] := by
  have hr : stretchRaises [(1 : ℚ)] (-1) := by
    refine ⟨by norm_num, Or.inr (Or.inl ?_)⟩
    have hx : (([(1 : ℚ)].length : ℚ)) / (-1) = ((-1 : ℤ) : ℚ) := by norm_num
    rw [pyInt, hx, if_neg (by norm_num), Int.ceil_intCast]
    norm_num
  exact ⟨hr, stretch_fail_soft_thm _ _ hr⟩
/-- Counterexample to C10 as stated: at `w = [5]`, `s = -3` the sample
count is `int(1 / -3) = 0` (truncation toward zero), `np.linspace` and
`np.interp` succeed on the empty position list, and `time_stretch` returns
the empty waveform — not the original input. -/
theorem stretch_negative_cex : time_stretch [(5 : ℚ)] (-3) ≠ [(5 : ℚ)] := by
  have hx : (([(5 : ℚ)].length : ℚ)) / (-3) = -(1/3) := by norm_num
  have hc : pyInt ((([(5 : ℚ)].length : ℚ)) / (-3)) = 0 := by
    rw [pyInt, hx, if_neg (by norm_num)]
    norm_num
  have h : time_stretch [(5 : ℚ)] (-3) = [] := by
    simp only [time_stretch, if_neg (by norm_num : (-3 : ℚ) ≠ 1),
      if_neg (by norm_num : (-3 : ℚ) ≠ 0), hc]
    norm_num [linspace]
  rw [h]
  simp

/-- C10 (amended): for `s = 0` `time_stretch` returns `w` (caught division
by zero); for `s < 0` it returns `w` when `w` is empty or `len w ≥ -s`
(negative sample count rejected, caught), but returns the empty waveform
when `0 < len w < -s`, because the sample count truncates to zero and no
exception occurs. -/
theorem stretch_nonpos_thm (w : List ℚ) (s : ℚ) (hs : s ≤ 0) :
    time_stretch w s =
      if s < 0 ∧ w.length ≠ 0 ∧ (w.length : ℚ) < -s then [] else w := by
  rcases eq_or_lt_of_le hs with h0 | h0
  · subst h0
    simp [time_stretch]
  · have hs1 : s ≠ 1 := by linarith
    have hs0 : s ≠ 0 := ne_of_lt h0
    by_cases hw : w.length = 0
    · have hnil : w = [] := List.length_eq_zero.1 hw
      subst hnil
      rw [time_stretch_nil]
      simp
    · have hlen : (0 : ℚ) < (w.length : ℚ) := by exact_mod_cast Nat.pos_of_ne_zero hw
      by_cases hbig : (w.length : ℚ) < -s
      · -- int(len / s) = 0 : no exception, empty resample
        have hdiv : (w.length : ℚ) / s < 0 := div_neg_of_pos_of_neg hlen h0
        have hgt : (-1 : ℚ) < (w.length : ℚ) / s := by
          rw [lt_div_iff_of_neg h0]
          linarith
        have hnum : pyInt ((w.length : ℚ) / s) = 0 := by
          rw [pyInt, if_neg (not_le.2 hdiv)]
          have hc1 : ⌈(w.length : ℚ) / s⌉ ≤ 0 := Int.ceil_le.2 (by exact_mod_cast hdiv.le)
          have hc2 : (-1 : ℤ) < ⌈(w.length : ℚ) / s⌉ := Int.lt_ceil.2 (by exact_mod_cast hgt)
          omega
        rw [if_pos ⟨h0, hw, hbig⟩]
        simp only [time_stretch, if_neg hs1, if_neg hs0, hnum]
        norm_num [hw, linspace]
      · -- int(len / s) ≤ -1 : negative sample count, fail soft
        have hdivle : (w.length : ℚ) / s ≤ -1 := by
          rw [div_le_iff_of_neg h0]
          push_neg at hbig
          linarith
        have hdiv : (w.length : ℚ) / s < 0 := div_neg_of_pos_of_neg hlen h0
        have hnum : pyInt ((w.length : ℚ) / s) < 0 := by
          rw [pyInt, if_neg (not_le.2 hdiv)]
          have := Int.ceil_le.2 (by exact_mod_cast hdivle : (w.length : ℚ) / s ≤ ((-1 : ℤ) : ℚ))
          omega
        rw [if_neg (by simp [hbig])]
        simp only [time_stretch, if_neg hs1, if_neg hs0, if_pos hnum]

/-- Witness for the amended C10 at `w = [1, 2]`, `s = -1` (here
`len w ≥ -s`, so the original waveform is returned). -/
theorem stretch_nonpos_thm_wit : time_stretch [(1 : ℚ), 2] (-1) = [(1 : ℚ), 2] := by
  have h := stretch_nonpos_thm [(1 : ℚ), 2] (-1) (by norm_num)
  norm_num at h
  exact h

/-- C9: after any sequence of `get_model` calls from the initial empty
cache, every key of `loaded_models` is a catalog key mapping to the handle
a successful load produced for it; and any failing `get_model` call leaves
the cache unchanged. -/
theorem cache_invariant_thm (E : Env) :
    (∀ langs : List String, cacheWF E (runCalls E langs)) ∧
    (∀ (c : Cache) (lang : String),
      (get_model E c lang).2.1 = none → (get_model E c lang).1 = c) := by
  constructor
  · intro langs
    rw [runCalls]
    have hgen : ∀ (l : List String) (c : Cache), cacheWF E c →
        cacheWF E (l.foldl (fun c l => (get_model E c l).1) c) := by
      intro l
      induction l with
      | nil => intro c hc; exact hc
      | cons x xs ih =>
        intro c hc
        exact ih _ (get_model_preserves_wf E c x hc)
    exact hgen langs [] rfl
  · intro c lang hnone
    rcases h1 : List.lookup lang c with _ | h
    · rcases h2 : List.lookup lang supported_languages with _ | mid
      · simp [get_model, h1, h2]
      · rcases h3 : E.loadModel mid with _ | m
        · simp [get_model, h1, h2, h3]
        · rcases h4 : E.loadTokenizer mid with _ | t
          · simp [get_model, h1, h2, h3, h4]
          · exfalso
            simp [get_model, h1, h2, h3, h4] at hnone
    · exfalso
      simp [get_model, h1] at hnone

/-- Witness for C9: a concrete call sequence, and a failing call on an
unsupported code leaving the empty cache unchanged. -/
theorem cache_invariant_thm_wit :
    cacheWF envOK (runCalls envOK ["en", "xx", "en"]) ∧
    (get_model envOK [] "xx").1 = [] := by
  refine ⟨(cache_invariant_thm envOK).1 ["en", "xx", "en"],
    (cache_invariant_thm envOK).2 [] "xx" ?_⟩
  rfl

/-- C6: for a catalog-supported code whose first load succeeds, `get_model`
returns the freshly loaded handle (two fetch attempts) and every subsequent
call returns the identical cached handle with zero fetch attempts. -/
theorem cache_idempotent_thm (E : Env) (c : Cache) (lang mid : String) (m t : Nat)
    (hsl : List.lookup lang supported_languages = some mid)
    (hm : E.loadModel mid = some m) (ht : E.loadTokenizer mid = some t)
    (hc : List.lookup lang c = none) :
    get_model E c lang = ((lang, m, t) :: c, some (m, t), 2) ∧
    get_model E ((lang, m, t) :: c) lang = ((lang, m, t) :: c, some (m, t), 0) := by
  constructor
  · simp [get_model, hc, hsl, hm, ht]
  · simp [get_model, List.lookup]

/-- Witness for C6 at the code `"en"` in the all-succeeding environment. -/
theorem cache_idempotent_thm_wit :
    get_model envOK [] "en" = ([("en", 1, 2)], some (1, 2), 2) ∧
    get_model envOK [("en", 1, 2)] "en" = ([("en", 1, 2)], some (1, 2), 0) :=
  cache_idempotent_thm envOK [] "en" "facebook/mms-tts-eng" 1 2 rfl rfl rfl rfl

/-- C5: for a language code absent from the catalog, `get_model` returns
the empty handle with zero external fetch attempts and the cache unchanged
(for any cache reachable by the program, i.e. well-formed), and
`speak_with_lang` returns `None` with zero fetch attempts. -/
theorem unsupported_thm (E : Env) (c : Cache) (lang text : String) (speed : ℚ)
    (hsl : List.lookup lang supported_languages = none) (hwf : cacheWF E c) :
    get_model E c lang = (c, none, 0) ∧
    speak_with_lang E c lang text speed = (c, none, 0) := by
  have hc : List.lookup lang c = none := lookup_eq_none_of_cacheWF hwf hsl
  constructor
  · simp [get_model, hc, hsl]
  · rw [speak_with_lang, if_pos]
    rw [isSupported, hsl]
    rfl

/-- Witness for C5 at the unsupported code `"xx"` and the empty cache. -/
theorem unsupported_thm_wit :
    get_model envOK [] "xx" = ([], none, 0) ∧
    speak_with_lang envOK [] "xx" "hello" 1 = ([], none, 0) :=
  unsupported_thm envOK [] "xx" "hello" 1 rfl rfl
/-- C4: `detect_language` returns a catalog key or the sentinel
`"unknown"`, never any other string; the primary classifier's result is
returned immediately when catalog-supported, otherwise the secondary
detector's result is returned only if catalog-supported, and a primary
classifier exception yields the sentinel. -/
theorem detect_validated_thm (E : Env) (text : String) :
    (isSupported (detect_language E text) = true ∨ detect_language E text = "unknown") ∧
    (∀ l, E.classify text = some l → isSupported l = true → detect_language E text = l) ∧
    (∀ l, E.classify text = some l → isSupported l = false →
      detect_language E text =
        (match E.detect text with
         | none => "unknown"
         | some d => if isSupported d then d else "unknown")) ∧
    (E.classify text = none → detect_language E text = "unknown") := by
  refine ⟨?_, ?_, ?_, ?_⟩
  · rcases h1 : E.classify text with _ | l
    · right
      simp [detect_language, h1]
    · by_cases h2 : isSupported l = true
      · left
        simp [detect_language, h1, h2]
      · rw [Bool.not_eq_true] at h2
        rcases h3 : E.detect text with _ | d
        · right
          simp [detect_language, h1, h2, h3]
        · by_cases h4 : isSupported d = true
          · left
            simp [detect_language, h1, h2, h3, h4]
          · right
            rw [Bool.not_eq_true] at h4
            simp [detect_language, h1, h2, h3, h4]
  · intro l hl hsup
    simp [detect_language, hl, hsup]
  · intro l hl hsup
    simp [detect_language, hl, hsup]
  · intro h
    simp [detect_language, h]

/-- Witness for C4: the all-succeeding environment classifies as the
supported code `"en"`, which is returned immediately. -/
theorem detect_validated_thm_wit : detect_language envOK "abc" = "en" :=
  (detect_validated_thm envOK "abc").2.1 "en" rfl rfl

/-- C7: no failure escapes the pipeline — `synthesize_audio` returns a
buffer exactly when every stage (model resolution, tokenization, inference,
encoding) succeeds, and `speak` / `speak_with_lang` return `None` exactly
when the language is rejected or synthesis returns `None`; `None` is the
sole failure signal of the `Option`-valued entry points. -/
theorem fail_soft_thm (E : Env) (c : Cache) (text lang : String) (speed : ℚ) :
    (∀ b : Nat, (synthesize_audio E c text lang speed).2.1 = some b ↔
      synthSteps E c text lang speed b) ∧
    ((speak E c text speed).2.1 = none ↔
      (isSupported (detect_language E text) = false ∨
        (synthesize_audio E c text (detect_language E text) speed).2.1 = none)) ∧
    ((speak_with_lang E c lang text speed).2.1 = none ↔
      (isSupported lang = false ∨
        (synthesize_audio E c text lang speed).2.1 = none)) := by
  have hmain : ∀ (lg : String) (b : Nat),
      (synthesize_audio E c text lg speed).2.1 = some b ↔ synthSteps E c text lg speed b := by
    intro lg b
    rcases hgm : get_model E c lg with ⟨c1, mh, f⟩
    rcases mh with _ | ⟨m, t⟩
    · simp [synthesize_audio, synthSteps, hgm]
    · rcases h2 : E.tokenize t text with _ | inp
      · simp [synthesize_audio, synthSteps, hgm, h2]
      · rcases h3 : E.infer m inp with _ | wv
        · simp [synthesize_audio, synthSteps, hgm, h2, h3]
        · rcases h4 : E.encode (time_stretch wv speed) with _ | buf
          · simp [synthesize_audio, synthSteps, hgm, h2, h3, h4]
          · have hsy : (synthesize_audio E c text lg speed).2.1 = some buf := by
              simp [synthesize_audio, hgm, h2, h3, h4]
            rw [hsy]
            constructor
            · intro h
              obtain rfl : buf = b := Option.some.inj h
              exact ⟨m, t, inp, wv, by rw [hgm], h2, h3, h4⟩
            · rintro ⟨mx, tx, inpx, wvx, hgmx, h2x, h3x, h4x⟩
              rw [hgm] at hgmx
              have hmt : (m, t) = (mx, tx) := by simpa using hgmx
              cases hmt
              rw [h2] at h2x
              obtain rfl : inp = inpx := Option.some.inj h2x
              rw [h3] at h3x
              obtain rfl : wv = wvx := Option.some.inj h3x
              rw [← h4, ← h4x]
  refine ⟨hmain lang, ?_, ?_⟩
  · rw [speak]
    by_cases hd : isSupported (detect_language E text) = true
    · simp only [hd, if_true]
      constructor
      · intro h
        exact Or.inr h
      · rintro (h | h)
        · exact absurd h (by simp [hd])
        · exact h
    · rw [Bool.not_eq_true] at hd
      simp [hd]
  · rw [speak_with_lang]
    by_cases hd : isSupported lang = true
    · rw [if_neg (by simp [hd])]
      constructor
      · intro h
        exact Or.inr h
      · rintro (h | h)
        · exact absurd h (by simp [hd])
        · exact h
    · rw [Bool.not_eq_true] at hd
      simp [hd]

/-- Witness for C7 in the all-succeeding environment. -/
theorem fail_soft_thm_wit :
    (synthesize_audio envOK [] "hi" "en" 1).2.1 = some 7 ↔
      synthSteps envOK [] "hi" "en" 1 7 :=
  (fail_soft_thm envOK [] "hi" "en" 1).1 7

end TtsSdk
